import Mathlib

/-!
Verification of the index-generation module (`src/buildindex.js`) of
opensphere-build-index.

The JavaScript module is shallowly embedded as follows.

* Strings are Lean `String`s (lists of characters).  JavaScript
  `String.prototype.replace` with a string pattern replaces only the first
  occurrence; `replace` with a `/token/g` regex over a literal token replaces
  every non-overlapping occurrence, scanning left to right without rescanning
  replaced text.  Both are implemented below from a single fuel-driven
  splitter so that every operation is executable by kernel reduction.
  (JavaScript interprets dollar patterns inside the replacement string; no
  replacement produced by this module contains a dollar sign, and that
  feature is not modelled.)
* The file system is a map `String → Option String` (path to contents);
  `none` models any read failure.  `process.exit(1)` and thrown errors are
  modelled as a distinguished error variant of an `Except` result, and the
  file writes a builder performs are returned as an explicit list, so that a
  run with no effect is exactly a run returning an empty write list.
* External collaborators are fields of an `Env` record: the
  `opensphere-build-closure-helper` debug-loader writer (a function from the
  app path to success or failure, covering both the `gcc-args` require and
  the writer itself), the closure-library location that the source resolves
  via `require.resolve`, and the working directory.  The npm `slash` package
  is modelled as backslash-to-forward-slash conversion, and Node's
  `path.join`/`path.isAbsolute`/`path.relative`/`path.sep` are modelled for
  POSIX paths (`path.relative` simplified to prefix stripping; the claims
  treat its output opaquely).  `mkdirp` of the dist directory is a pure
  directory effect and is not modelled.
* The bluebird promise orchestration of `buildIndex` is modelled per
  template: the mapper's returned promise reflects only the one-time
  debug-loader generation, while the two `.then` chains holding the debug
  and compiled builds are created and then discarded by the source, so their
  outcomes are recorded separately as `dropped` errors.  The aggregate
  `Promise.map` result is the first error among the returned per-template
  promises.  Events record, per template and in order, the loader-generation
  call and the invocations of the two builders.
-/

namespace OSBI

/-! ## Character-list string primitives -/

/-- `dropPrefixCL pat s` returns `some r` when `s = pat ++ r`, else `none`. -/
def dropPrefixCL : List Char → List Char → Option (List Char)
  | [], s => some s
  | _ :: _, [] => none
  | p :: ps, c :: cs => if p = c then dropPrefixCL ps cs else none

/-- Whether `pat` occurs as a contiguous substring of the second argument. -/
def containsCL (pat : List Char) : List Char → Bool
  | [] => decide (pat = [])
  | c :: cs => (dropPrefixCL pat (c :: cs)).isSome || containsCL pat cs

/-- Fuel-driven splitter on a literal separator: left-to-right scan, at each
position either consume a full separator occurrence and close the current
part, or move one character into the accumulator.  With fuel at least the
length of the input the fuel never runs out. -/
def splitOnGo (pat : List Char) : Nat → List Char → List Char → List (List Char)
  | _, [], acc => [acc.reverse]
  | 0, s, acc => [acc.reverse ++ s]
  | fuel+1, c :: cs, acc =>
    match dropPrefixCL pat (c :: cs) with
    | some rest => acc.reverse :: splitOnGo pat fuel rest []
    | none => splitOnGo pat fuel cs (c :: acc)

/-- Join a list of pieces with a separator. -/
def intercalateCL (sep : List Char) : List (List Char) → List Char
  | [] => []
  | [a] => a
  | a :: b :: t => a ++ sep ++ intercalateCL sep (b :: t)

/-- JavaScript `s.split(sep)` for a non-empty literal separator (the module
only ever splits on a newline). -/
def splitOnS (s sep : String) : List String :=
  if sep.data = [] then [s]
  else (splitOnGo sep.data s.data.length s.data []).map (fun l => (⟨l⟩ : String))

/-- Join, the inverse direction of `splitOnS`. -/
def intercalateS (sep : String) (l : List String) : String :=
  ⟨intercalateCL sep.data (l.map String.data)⟩

/-- JavaScript `s.replace(/pat/g, rep)` for a literal token `pat`: every
non-overlapping occurrence is replaced, left to right. -/
def replaceAllS (s pat rep : String) : String :=
  intercalateS rep (splitOnS s pat)

/-- JavaScript `s.replace(pat, rep)` with a string pattern: only the first
occurrence is replaced. -/
def replaceFirstS (s pat rep : String) : String :=
  match splitOnS s pat with
  | [] => s
  | [_] => s
  | a :: rest => a ++ rep ++ intercalateS pat rest

/-- JavaScript `s.indexOf(pat) > -1` for the non-empty marker strings used by
the module. -/
def strContains (s pat : String) : Bool :=
  containsCL pat.data s.data

/-! ## Path and JavaScript-semantics helpers -/

/-- POSIX `path.sep`. -/
def pathSep : String := "/"

/-- The npm `slash` package: backslashes become forward slashes. -/
def slash (p : String) : String :=
  ⟨p.data.map (fun c => if c = '\\' then '/' else c)⟩

/-- POSIX `path.isAbsolute`. -/
def isAbsolute (p : String) : Bool :=
  match p.data with
  | '/' :: _ => true
  | _ => false

/-- Node `path.join` for two segments, modelled as plain concatenation with a
separator (the paths built by this module introduce no `..` or duplicate
separators to normalise). -/
def joinPath (a b : String) : String := a ++ "/" ++ b

/-- Node `path.relative(base, target)`, simplified to stripping the base
directory when `target` lies under it; the claims use its result opaquely. -/
def relativePath (base target : String) : String :=
  match dropPrefixCL (base ++ "/").data target.data with
  | some r => ⟨r⟩
  | none => target

/-- JavaScript `a || b` on an optional string: `undefined` and the empty
string are both falsy. -/
def jsOr (a : Option String) (b : String) : String :=
  match a with
  | none => b
  | some s => if s = "" then b else s

/-! ## Data model (src/buildindex.js) -/

/-- A template descriptor from the `templates` option:
`{id, file?, skip?}`. -/
structure TemplateOptions where
  id : String
  file : Option String := none
  skip : Bool := false
deriving DecidableEq

/-- The index generation options object.  `templates := none` models an
options object without a `templates` field. -/
structure Options where
  templates : Option (List TemplateOptions) := none
  basePath : Option String := none
  appPath : Option String := none
  distPath : String := ""
  appVersion : Option String := none
  packageVersion : Option String := none
  overrideVersion : Option String := none
  debugCss : String := ""
  compiledCss : String := ""
  compiledJs : String := ""

/-- Failures of a build step.  `fatalExit` models `process.exit(code)` (the
manifest-read failure path), `thrown` a thrown or rejected `Error` with its
message. -/
inductive BuildErr where
  | fatalExit (code : Nat)
  | thrown (msg : String)
deriving DecidableEq

instance decEqExceptErr {ε α : Type} [DecidableEq ε] [DecidableEq α] :
    DecidableEq (Except ε α) := fun x y =>
  match x, y with
  | .ok a, .ok b =>
    match decEq a b with
    | isTrue h => isTrue (by rw [h])
    | isFalse h => isFalse (fun hEq => h (Except.ok.inj hEq))
  | .error a, .error b =>
    match decEq a b with
    | isTrue h => isTrue (by rw [h])
    | isFalse h => isFalse (fun hEq => h (Except.error.inj hEq))
  | .ok _, .error _ => isFalse (fun hEq => Except.noConfusion hEq)
  | .error _, .ok _ => isFalse (fun hEq => Except.noConfusion hEq)

/-- External collaborators and ambient state of one run. -/
structure Env where
  /-- File contents by path; `none` is a failing read. -/
  fs : String → Option String
  /-- `process.cwd()`. -/
  cwd : String
  /-- Directory of `google-closure-library` as found by `require.resolve`. -/
  closureLibPath : String
  /-- `closureHelper.writeDebugLoader` composed with the `gcc-args` require,
  keyed by the path it is invoked for: the one-time debug-loader generation,
  yielding success or a rejection reason. -/
  writeDebugLoader : String → Except String Unit

/-! ## Tag helpers (createScriptTag, createLinkTag, readFile) -/

/-- `createScriptTag`: a script tag, or an empty string for an empty path. -/
def createScriptTag (filePath : String) : String :=
  if filePath = "" then "" else "<script src=\"" ++ slash filePath ++ "\"></script>"

/-- `createLinkTag`: a stylesheet link tag, or an empty string for an empty
path. -/
def createLinkTag (filePath : String) : String :=
  if filePath = "" then "" else "<link rel=\"stylesheet\" href=\"" ++ slash filePath ++ "\">"

/-! ## Marker substitution helpers (addAppCss .. addVendorScripts) -/

/-- `addAppCss`: replace the first `<!--APP_CSS-->` with the app link tag. -/
def addAppCss (cssPath template : String) : String :=
  replaceFirstS template "<!--APP_CSS-->" (createLinkTag cssPath)

/-- `addAppScript`: replace the first `<!--APP_JS-->` with the app script
tag. -/
def addAppScript (scriptPath template : String) : String :=
  replaceFirstS template "<!--APP_JS-->" (createScriptTag scriptPath)

/-- `addVendorCss`: read the manifest (a failing read logs and terminates the
process, modelled as `fatalExit 1`), split it into lines, and replace the
first `<!--VENDOR_CSS-->` with the joined link tags.  The `else` branch of
the source's `if (files && files.length > 0)` is kept although a split never
yields an empty array. -/
def addVendorCss (fs : String → Option String) (template inputFile : String) :
    Except BuildErr String :=
  match fs inputFile with
  | none => .error (.fatalExit 1)
  | some fileContent =>
    let files := splitOnS fileContent "\n"
    if files.length > 0 then
      .ok (replaceFirstS template "<!--VENDOR_CSS-->"
        (intercalateS "\n" (files.map createLinkTag)))
    else
      .ok (replaceFirstS template "<!--VENDOR_CSS-->" "")

/-- `getVendorScripts`: the manifest lines, or process termination on a
failing read. -/
def getVendorScripts (fs : String → Option String) (inputFile : String) :
    Except BuildErr (List String) :=
  match fs inputFile with
  | none => .error (.fatalExit 1)
  | some fileContent => .ok (splitOnS fileContent "\n")

/-- `addVendorScripts`: like `addVendorCss` for `<!--VENDOR_JS-->` and script
tags. -/
def addVendorScripts (fs : String → Option String) (template inputFile : String) :
    Except BuildErr String :=
  match getVendorScripts fs inputFile with
  | .error e => .error e
  | .ok files =>
    if files.length > 0 then
      .ok (replaceFirstS template "<!--VENDOR_JS-->"
        (intercalateS "\n" (files.map createScriptTag)))
    else
      .ok (replaceFirstS template "<!--VENDOR_JS-->" "")

/-- The joined vendor stylesheet block for a manifest's contents. -/
def vendorCssBlock (fileContent : String) : String :=
  intercalateS "\n" ((splitOnS fileContent "\n").map createLinkTag)

/-- The joined vendor script block for a manifest's contents. -/
def vendorJsBlock (fileContent : String) : String :=
  intercalateS "\n" ((splitOnS fileContent "\n").map createScriptTag)

/-! ## Version substitution phases -/

/-- The version-token substitution of the compiled builder (lines 155-161):
`@appVersion@` to `options.appVersion || ''`, `@packageVersion@` to
`options.overrideVersion || options.packageVersion || ''`, `@version@` to
`slash(version + path.sep)` for a non-empty version and to the empty string
otherwise; each token at every occurrence, in this order. -/
def compiledVersionSubst (options : Options) (template : String) : String :=
  let version := jsOr options.appVersion ""
  let packageVersion := jsOr options.overrideVersion (jsOr options.packageVersion "")
  let versionPath := if version ≠ "" then version ++ pathSep else ""
  let t := replaceAllS template "@appVersion@" version
  let t := replaceAllS t "@packageVersion@" packageVersion
  replaceAllS t "@version@" (slash versionPath)

/-- The version-token substitution of the debug builder (lines 205-210):
every `@version@` removed, then every `@appVersion@` and every
`@packageVersion@` replaced by the literal `dev`. -/
def debugVersionSubst (template : String) : String :=
  let t := replaceAllS template "@version@" ""
  let t := replaceAllS t "@appVersion@" "dev"
  replaceAllS t "@packageVersion@" "dev"

/-! ## The two builders -/

/-- `getAppLoaderPath`. -/
def getAppLoaderPath (basePath : String) : String :=
  joinPath (joinPath basePath ".build") "app-loader.js"

/-- The resolved template path of a descriptor: the `file` override if given
and absolute, otherwise joined onto the base path, defaulting to
`<id>-template.html`. -/
def templatePathOf (basePath : String) (templateOptions : TemplateOptions) : String :=
  let templateFile := jsOr templateOptions.file (templateOptions.id ++ "-template.html")
  if !(isAbsolute templateFile) then joinPath basePath templateFile else templateFile

/-- `buildCompiledIndex`: skip short-circuits with no effect; a missing
template file is a thrown error; otherwise substitute versions, fill both
vendor markers from the dist manifests (unconditionally), fill both app
markers, and write `<distPath>/<id>.html`.  The returned list holds the file
writes performed. -/
def buildCompiledIndex (env : Env) (options : Options)
    (templateOptions : TemplateOptions) (basePath appPath : String) :
    Except BuildErr (List (String × String)) :=
  let id := templateOptions.id
  let templatePath := templatePathOf basePath templateOptions
  if templateOptions.skip then .ok []
  else
    match env.fs templatePath with
    | none => .error (.thrown ("Missing template file " ++ templatePath))
    | some raw =>
      let template := compiledVersionSubst options raw
      match addVendorCss env.fs template
          (joinPath (joinPath appPath ".build") ("resources-css-dist-" ++ id)) with
      | .error e => .error e
      | .ok template =>
        match addVendorScripts env.fs template
            (joinPath (joinPath appPath ".build") ("resources-js-dist-" ++ id)) with
        | .error e => .error e
        | .ok template =>
          let template := addAppCss options.compiledCss template
          let template := addAppScript options.compiledJs template
          .ok [(joinPath options.distPath (id ++ ".html"), template)]

/-- `buildDebugIndex`: skip short-circuits with no effect; a missing template
file is a thrown error; otherwise substitute versions, fill the vendor CSS
marker from the debug manifest (unconditionally), fill the app CSS marker,
then only if `<!--VENDOR_JS-->` is present read the debug JS manifest and
fill it, then only if `<!--APP_JS-->` is present fill it with the four-entry
bootstrap sequence (gcc debug defines, closure base.js, closure deps.js, app
loader), each relative to the base path; write `<basePath>/<id>.html`. -/
def buildDebugIndex (env : Env) (options : Options)
    (templateOptions : TemplateOptions) (basePath appPath : String) :
    Except BuildErr (List (String × String)) :=
  let id := templateOptions.id
  let templatePath := templatePathOf basePath templateOptions
  if templateOptions.skip then .ok []
  else
    match env.fs templatePath with
    | none => .error (.thrown ("Missing template file " ++ templatePath))
    | some raw =>
      let template := debugVersionSubst raw
      match addVendorCss env.fs template
          (joinPath (joinPath appPath ".build") ("resources-css-debug-" ++ id)) with
      | .error e => .error e
      | .ok template =>
        let template := addAppCss options.debugCss template
        let afterVendorJs : Except BuildErr String :=
          if strContains template "<!--VENDOR_JS-->" then
            match getVendorScripts env.fs
                (joinPath (joinPath appPath ".build") ("resources-js-debug-" ++ id)) with
            | .error e => .error e
            | .ok vendorScripts =>
              .ok (replaceFirstS template "<!--VENDOR_JS-->"
                (intercalateS "\n" (vendorScripts.map createScriptTag)))
          else .ok template
        match afterVendorJs with
        | .error e => .error e
        | .ok template =>
          let template :=
            if strContains template "<!--APP_JS-->" then
              let closureSrcPath := joinPath (joinPath env.closureLibPath "closure") "goog"
              let appScripts := [
                relativePath basePath
                  (joinPath (joinPath appPath ".build") "gcc-defines-debug.js"),
                relativePath basePath (joinPath closureSrcPath "base.js"),
                relativePath basePath (joinPath closureSrcPath "deps.js"),
                relativePath basePath (getAppLoaderPath appPath)]
              replaceFirstS template "<!--APP_JS-->"
                (intercalateS "\n" (appScripts.map createScriptTag))
            else template
          .ok [(joinPath basePath (id ++ ".html"), template)]

/-- `buildDebugLoader`: the external one-time loader generation, including
the `gcc-args` require, summarised by the environment collaborator. -/
def buildDebugLoader (env : Env) (basePath : String) : Except String Unit :=
  env.writeDebugLoader basePath

/-! ## The orchestrator (buildIndex) -/

/-- Observable events of one run, in per-template order. -/
inductive Ev where
  | loaderGen (appPath : String)
  | debugBuild (id : String)
  | compiledBuild (id : String)
deriving DecidableEq

/-- What processing one template yields.  `returned` is the promise the
`Promise.map` mapper returns (the loader promise, or an already-resolved
one); `dropped` are the failures of the debug/compiled builds, whose chained
promises the source creates and discards, so they never reach the caller;
`effects` are the file writes performed; `events` the calls made, in
order. -/
structure TemplateOutcome where
  events : List Ev
  returned : Except BuildErr Unit
  effects : List (String × String)
  dropped : List BuildErr

/-- The writes of a builder result. -/
def writesOf (r : Except BuildErr (List (String × String))) : List (String × String) :=
  match r with
  | .ok ws => ws
  | .error _ => []

/-- The dropped error of a builder result. -/
def droppedOf (r : Except BuildErr (List (String × String))) : List BuildErr :=
  match r with
  | .ok _ => []
  | .error e => [e]

/-- One iteration of the `Promise.map` body of `buildIndex`: templates whose
id is the reserved name `index` and whose skip flag is not set first trigger
the loader generation, whose failure is wrapped and becomes the returned
rejection (the builds are then not invoked); otherwise both builds are
invoked on discarded promise chains (the compiled one only when the caller
did not request debug-only mode). -/
def processTemplate (env : Env) (options : Options) (debugOnly : Bool)
    (basePath appPath : String) (t : TemplateOptions) : TemplateOutcome :=
  let triggered := t.id == "index" && !t.skip
  let loaderRes : Except String Unit :=
    if triggered then buildDebugLoader env appPath else .ok ()
  match loaderRes with
  | .error reason =>
    { events := [.loaderGen appPath]
      returned := .error (.thrown ("Failed writing debug loader: " ++ reason))
      effects := []
      dropped := [] }
  | .ok () =>
    let debugRes := buildDebugIndex env options t basePath appPath
    let compiledRes : Except BuildErr (List (String × String)) :=
      if debugOnly then .ok [] else buildCompiledIndex env options t basePath appPath
    { events := (if triggered then [.loaderGen appPath] else []) ++
        [.debugBuild t.id] ++ (if debugOnly then [] else [.compiledBuild t.id])
      returned := .ok ()
      effects := writesOf debugRes ++ writesOf compiledRes
      dropped := droppedOf debugRes ++
        (if debugOnly then [] else droppedOf compiledRes) }

/-- The base path of a run: `options.basePath || process.cwd()`. -/
def basePathOf (env : Env) (options : Options) : String :=
  jsOr options.basePath env.cwd

/-- The app path of a run: `options.appPath || basePath`. -/
def appPathOf (env : Env) (options : Options) : String :=
  jsOr options.appPath (basePathOf env options)

/-- All per-template outcomes of a run, in declaration order. -/
def buildIndexOutcomes (env : Env) (options : Options) (debugOnly : Bool) :
    List TemplateOutcome :=
  match options.templates with
  | none => []
  | some ts =>
    ts.map (processTemplate env options debugOnly (basePathOf env options)
      (appPathOf env options))

/-- First rejection of the mapped promises, as `Promise.map` surfaces it. -/
def firstError : List (Except BuildErr Unit) → Except BuildErr Unit
  | [] => .ok ()
  | .ok () :: rest => firstError rest
  | .error e :: _ => .error e

/-- `buildIndex`: the settled value of the promise returned to the caller. -/
def buildIndex (env : Env) (options : Options) (debugOnly : Bool) :
    Except BuildErr Unit :=
  firstError ((buildIndexOutcomes env options debugOnly).map (·.returned))

/-- All events of a run in declaration order of the templates (bluebird may
interleave the per-template sequences; every interleaving is a permutation
of this list, and within one template the order is as listed). -/
def buildIndexEvents (env : Env) (options : Options) (debugOnly : Bool) : List Ev :=
  ((buildIndexOutcomes env options debugOnly).map (·.events)).flatten

/-- All file writes of a run. -/
def buildIndexEffects (env : Env) (options : Options) (debugOnly : Bool) :
    List (String × String) :=
  ((buildIndexOutcomes env options debugOnly).map (·.effects)).flatten

/-- All build failures that end up in discarded promise chains. -/
def buildIndexDropped (env : Env) (options : Options) (debugOnly : Bool) :
    List BuildErr :=
  ((buildIndexOutcomes env options debugOnly).map (·.dropped)).flatten

/-- How many loader generations a run triggers. -/
def countLoaderGen (evs : List Ev) : Nat :=
  evs.countP (fun e => match e with | .loaderGen _ => true | _ => false)

/-! ## Lemmas about the string primitives -/

lemma dropPrefixCL_iff {pat s r : List Char} :
    dropPrefixCL pat s = some r ↔ s = pat ++ r := by
  induction pat generalizing s with
  | nil => simp [dropPrefixCL]
  | cons p ps ih =>
    cases s with
    | nil => simp [dropPrefixCL]
    | cons c cs =>
      by_cases h : p = c
      · subst h
        simp [dropPrefixCL, ih]
      · simp only [dropPrefixCL, if_neg h, List.cons_append]
        constructor
        · intro hc; exact Option.noConfusion hc
        · intro hc
          injection hc with h1 _
          exact absurd h1.symm h

lemma containsCL_nil_left (s : List Char) : containsCL ([] : List Char) s = true := by
  cases s <;> simp [containsCL, dropPrefixCL]

lemma containsCL_iff {pat s : List Char} :
    containsCL pat s = true ↔ ∃ u v, s = u ++ pat ++ v := by
  induction s with
  | nil =>
    simp only [containsCL, decide_eq_true_eq]
    constructor
    · intro h; exact ⟨[], [], by simp [h]⟩
    · rintro ⟨u, v, huv⟩
      rcases List.append_eq_nil.mp huv.symm with ⟨h1, h2⟩
      exact (List.append_eq_nil.mp h1).2
  | cons c cs ih =>
    simp only [containsCL, Bool.or_eq_true, Option.isSome_iff_exists, ih]
    constructor
    · rintro (⟨r, hr⟩ | ⟨u, v, huv⟩)
      · exact ⟨[], r, by simpa using dropPrefixCL_iff.mp hr⟩
      · exact ⟨c :: u, v, by simp [huv]⟩
    · rintro ⟨u, v, huv⟩
      cases u with
      | nil => exact Or.inl ⟨v, dropPrefixCL_iff.mpr (by simpa using huv)⟩
      | cons x xs =>
        rw [List.cons_append, List.cons_append] at huv
        injection huv with h1 h2
        exact Or.inr ⟨xs, v, h2⟩

lemma containsCL_ne_nil {pat s : List Char} (h : containsCL pat s = false) :
    pat ≠ [] := by
  intro h0
  rw [h0, containsCL_nil_left] at h
  exact Bool.noConfusion h

lemma splitOnGo_nil (pat acc : List Char) (fuel : Nat) :
    splitOnGo pat fuel [] acc = [acc.reverse] := by
  cases fuel <;> rfl

lemma splitOnGo_cons_pos {pat : List Char} {c : Char} {cs rest : List Char}
    (acc : List Char) (fuel : Nat) (h : dropPrefixCL pat (c :: cs) = some rest) :
    splitOnGo pat (fuel+1) (c :: cs) acc = acc.reverse :: splitOnGo pat fuel rest [] := by
  simp [splitOnGo, h]

lemma splitOnGo_cons_neg {pat : List Char} {c : Char} {cs : List Char}
    (acc : List Char) (fuel : Nat) (h : dropPrefixCL pat (c :: cs) = none) :
    splitOnGo pat (fuel+1) (c :: cs) acc = splitOnGo pat fuel cs (c :: acc) := by
  simp [splitOnGo, h]

lemma splitOnGo_ne_nil (pat : List Char) :
    ∀ fuel s acc, splitOnGo pat fuel s acc ≠ [] := by
  intro fuel
  induction fuel with
  | zero => intro s acc; cases s <;> simp [splitOnGo]
  | succ fuel ih =>
    intro s acc
    cases s with
    | nil => simp [splitOnGo_nil]
    | cons c cs =>
      cases h : dropPrefixCL pat (c :: cs) with
      | some rest => rw [splitOnGo_cons_pos acc fuel h]; simp
      | none => rw [splitOnGo_cons_neg acc fuel h]; exact ih cs (c :: acc)

lemma intercalateCL_splitOnGo {pat : List Char} (hpat : pat ≠ []) :
    ∀ fuel s acc, s.length ≤ fuel →
      intercalateCL pat (splitOnGo pat fuel s acc) = acc.reverse ++ s := by
  intro fuel
  induction fuel with
  | zero =>
    intro s acc hs
    have h0 : s = [] := List.length_eq_zero.mp (Nat.le_zero.mp hs)
    subst h0
    simp [splitOnGo_nil, intercalateCL]
  | succ fuel ih =>
    intro s acc hs
    cases s with
    | nil => simp [splitOnGo_nil, intercalateCL]
    | cons c cs =>
      cases h : dropPrefixCL pat (c :: cs) with
      | none =>
        rw [splitOnGo_cons_neg acc fuel h,
          ih cs (c :: acc) (Nat.le_of_succ_le_succ (by simpa using hs))]
        simp
      | some rest =>
        rw [splitOnGo_cons_pos acc fuel h]
        have hcs : c :: cs = pat ++ rest := dropPrefixCL_iff.mp h
        have hplen : 1 ≤ pat.length := List.length_pos.mpr hpat
        have hlen : rest.length ≤ fuel := by
          have hl := congrArg List.length hcs
          simp only [List.length_cons, List.length_append] at hl
          simp only [List.length_cons] at hs
          omega
        obtain ⟨g, t, hgt⟩ := List.exists_cons_of_ne_nil (splitOnGo_ne_nil pat fuel rest [])
        rw [hgt]
        simp only [intercalateCL]
        rw [← hgt, ih rest [] hlen]
        simp [hcs]

lemma splitOnGo_of_not_contains {pat : List Char} :
    ∀ fuel s acc, s.length ≤ fuel →
      containsCL pat (acc.reverse ++ s) = false →
      splitOnGo pat fuel s acc = [acc.reverse ++ s] := by
  intro fuel
  induction fuel with
  | zero =>
    intro s acc hs _
    have h0 : s = [] := List.length_eq_zero.mp (Nat.le_zero.mp hs)
    subst h0
    simp [splitOnGo_nil]
  | succ fuel ih =>
    intro s acc hs hfree
    cases s with
    | nil => simp [splitOnGo_nil]
    | cons c cs =>
      cases h : dropPrefixCL pat (c :: cs) with
      | some rest =>
        exfalso
        have hcs : c :: cs = pat ++ rest := dropPrefixCL_iff.mp h
        have : containsCL pat (acc.reverse ++ (c :: cs)) = true :=
          containsCL_iff.mpr ⟨acc.reverse, rest, by rw [hcs]; simp⟩
        rw [hfree] at this
        exact Bool.noConfusion this
      | none =>
        rw [splitOnGo_cons_neg acc fuel h]
        have hfree' : containsCL pat ((c :: acc).reverse ++ cs) = false := by
          simpa [List.append_assoc] using hfree
        have hres := ih cs (c :: acc) (Nat.le_of_succ_le_succ (by simpa using hs)) hfree'
        rw [hres]
        simp

/-- The accumulated text is pattern-free when no occurrence may start inside
it, even one reaching into the upcoming input. -/
lemma acc_free_of_inv {pat : List Char} (hpat : pat ≠ []) {A s : List Char}
    (inv : ∀ u v, A = u ++ v → v ≠ [] → ¬ ∃ r, v ++ s = pat ++ r) :
    containsCL pat A = false := by
  cases hc : containsCL pat A with
  | false => rfl
  | true =>
    exfalso
    obtain ⟨u, v, huv⟩ := containsCL_iff.mp hc
    refine inv u (pat ++ v) (by simpa [List.append_assoc] using huv)
      (fun h0 => hpat (List.append_eq_nil.mp h0).1) ⟨v ++ s, by simp⟩

/-- Every part the splitter emits is free of the separator: the scan closes a
part exactly at the leftmost separator occurrence, and the invariant says no
occurrence can start inside the accumulated text and finish later. -/
lemma splitOnGo_parts_free {pat : List Char} (hpat : pat ≠ []) :
    ∀ fuel s acc, s.length ≤ fuel →
      (∀ u v, acc.reverse = u ++ v → v ≠ [] → ¬ ∃ r, v ++ s = pat ++ r) →
      ∀ p ∈ splitOnGo pat fuel s acc, containsCL pat p = false := by
  intro fuel
  induction fuel with
  | zero =>
    intro s acc hs inv p hp
    have h0 : s = [] := List.length_eq_zero.mp (Nat.le_zero.mp hs)
    subst h0
    rw [splitOnGo_nil] at hp
    have hpe := List.mem_singleton.mp hp
    subst hpe
    exact acc_free_of_inv hpat inv
  | succ fuel ih =>
    intro s acc hs inv p hp
    cases s with
    | nil =>
      rw [splitOnGo_nil] at hp
      have hpe := List.mem_singleton.mp hp
      subst hpe
      exact acc_free_of_inv hpat inv
    | cons c cs =>
      cases h : dropPrefixCL pat (c :: cs) with
      | some rest =>
        rw [splitOnGo_cons_pos acc fuel h] at hp
        have hcs : c :: cs = pat ++ rest := dropPrefixCL_iff.mp h
        rcases List.mem_cons.mp hp with hpe | hp'
        · subst hpe
          exact acc_free_of_inv hpat inv
        · have hplen : 1 ≤ pat.length := List.length_pos.mpr hpat
          have hlen : rest.length ≤ fuel := by
            have hl := congrArg List.length hcs
            simp only [List.length_cons, List.length_append] at hl
            simp only [List.length_cons] at hs
            omega
          refine ih rest [] hlen ?_ p hp'
          intro u v huv hv
          exact absurd (List.append_eq_nil.mp huv.symm).2 hv
      | none =>
        rw [splitOnGo_cons_neg acc fuel h] at hp
        refine ih cs (c :: acc) (Nat.le_of_succ_le_succ (by simpa using hs)) ?_ p hp
        intro u v huv hv hocc
        obtain ⟨r, hr⟩ := hocc
        -- acc.reverse ++ [c] = u ++ v with v nonempty
        rw [List.reverse_cons] at huv
        rcases List.append_eq_append_iff.mp huv with ⟨w, hw1, hw2⟩ | ⟨w, hw1, hw2⟩
        · -- u = acc.reverse ++ w and [c] = w ++ v
          cases w with
          | nil =>
            -- v = [c]
            simp only [List.nil_append] at hw2
            subst hw2
            have : dropPrefixCL pat (c :: cs) = some r :=
              dropPrefixCL_iff.mpr (by simpa using hr)
            rw [h] at this
            exact Option.noConfusion this
          | cons x xs =>
            -- [c] = x :: (xs ++ v) forces xs = [] and v = []
            rw [List.cons_append] at hw2
            injection hw2 with h1 h2
            rcases List.append_eq_nil.mp h2.symm with ⟨_, h4⟩
            exact hv h4
        · -- acc.reverse = u ++ w and v = w ++ [c]
          cases hw : w with
          | nil =>
            subst hw
            simp only [List.nil_append] at hw2
            subst hw2
            have : dropPrefixCL pat (c :: cs) = some r :=
              dropPrefixCL_iff.mpr (by simpa using hr)
            rw [h] at this
            exact Option.noConfusion this
          | cons x xs =>
            refine inv u w (by rw [hw1, hw]) (by simp [hw]) ⟨r, ?_⟩
            rw [hw2] at hr
            simpa [List.append_assoc] using hr

/-- The top-level parts of a split are free of the separator. -/
lemma splitOn_parts_free {pat : List Char} (s : List Char) (hpat : pat ≠ []) :
    ∀ p ∈ splitOnGo pat s.length s [], containsCL pat p = false := by
  refine splitOnGo_parts_free hpat s.length s [] le_rfl ?_
  intro u v huv hv
  exact absurd (List.append_eq_nil.mp huv.symm).2 hv

lemma infix_intercalateCL {sep : List Char} :
    ∀ {parts : List (List Char)} {p : List Char}, p ∈ parts →
      p <:+: intercalateCL sep parts := by
  intro parts
  induction parts with
  | nil => intro p hp; exact absurd hp (List.not_mem_nil p)
  | cons a rest ih =>
    intro p hp
    cases rest with
    | nil =>
      rcases List.mem_singleton.mp hp with rfl
      exact List.infix_refl p
    | cons b t =>
      rcases List.mem_cons.mp hp with rfl | hp'
      · exact ⟨[], sep ++ intercalateCL sep (b :: t), by simp [intercalateCL]⟩
      · obtain ⟨u, v, huv⟩ := ih hp'
        refine ⟨a ++ sep ++ u, v, ?_⟩
        simp only [intercalateCL, List.append_assoc] at huv ⊢
        rw [huv]

lemma containsCL_of_infix {pat p X : List Char} (hinf : p <:+: X)
    (hc : containsCL pat p = true) : containsCL pat X = true := by
  obtain ⟨u, v, huv⟩ := hinf
  obtain ⟨a, b, hab⟩ := containsCL_iff.mp hc
  refine containsCL_iff.mpr ⟨u ++ a, b ++ v, ?_⟩
  rw [← huv, hab]
  simp [List.append_assoc]

lemma free_of_infix {pat p X : List Char} (hX : containsCL pat X = false)
    (hinf : p <:+: X) : containsCL pat p = false := by
  cases hc : containsCL pat p with
  | false => rfl
  | true =>
    exfalso
    have := containsCL_of_infix hinf hc
    rw [hX] at this
    exact Bool.noConfusion this

/-- `rep` cannot take part in an occurrence of `pat` at any alignment: no
non-empty suffix of `rep` starts `pat` or contains it, and no non-empty
suffix of `pat` starts `rep` or is started by it.  Decidable; checked by
`decide` for the concrete tokens and replacements of the module. -/
def overlapFree (pat rep : List Char) : Prop :=
  (∀ j, j < rep.length → ¬ ((rep.drop j) <+: pat) ∧ ¬ (pat <+: rep.drop j)) ∧
  (∀ k, k < pat.length → 1 ≤ k → ¬ ((pat.drop k) <+: rep) ∧ ¬ (rep <+: pat.drop k))

instance decOverlapFree (pat rep : List Char) : Decidable (overlapFree pat rep) := by
  unfold overlapFree
  infer_instance

/-- A pattern absent from `I` is still absent from `rep ++ I` when it cannot
overlap `rep`. -/
lemma not_contains_rep_append {pat rep I : List Char} (hpat : pat ≠ [])
    (hov : overlapFree pat rep) (hI : containsCL pat I = false) :
    containsCL pat (rep ++ I) = false := by
  cases h : containsCL pat (rep ++ I) with
  | false => rfl
  | true =>
    exfalso
    obtain ⟨u, v, huv⟩ := containsCL_iff.mp h
    rw [List.append_assoc] at huv
    rcases List.append_eq_append_iff.mp huv with ⟨w, hw1, hw2⟩ | ⟨w, hw1, hw2⟩
    · -- u = rep ++ w, I = w ++ (pat ++ v): occurrence inside I
      have : containsCL pat I = true :=
        containsCL_iff.mpr ⟨w, v, by rw [hw2]; simp [List.append_assoc]⟩
      rw [hI] at this
      exact Bool.noConfusion this
    · -- rep = u ++ w, pat ++ v = w ++ I
      rcases List.append_eq_append_iff.mp hw2 with ⟨w2, hw3, hw4⟩ | ⟨w2, hw3, hw4⟩
      · -- w = pat ++ w2: pat starts the non-empty suffix w of rep
        have hwne : w ≠ [] := by
          rw [hw3]
          intro h0
          exact hpat (List.append_eq_nil.mp h0).1
        have hj : u.length < rep.length := by
          have hl := congrArg List.length hw1
          simp only [List.length_append] at hl
          have hw := List.length_pos.mpr hwne
          omega
        have hdrop : rep.drop u.length = w := by
          rw [hw1]; exact List.drop_left u w
        refine (hov.1 u.length hj).2 ?_
        rw [hdrop, hw3]
        exact ⟨w2, rfl⟩
      · -- pat = w ++ w2, I = w2 ++ v
        cases hwc : w with
        | nil =>
          subst hwc
          simp only [List.nil_append] at hw3
          -- pat = w2, I = pat ++ v
          have hcI : containsCL pat I = true :=
            containsCL_iff.mpr ⟨[], v, by rw [hw4, ← hw3]; simp⟩
          rw [hI] at hcI
          exact Bool.noConfusion hcI
        | cons x xs =>
          have hwne : w ≠ [] := by rw [hwc]; simp
          have hj : u.length < rep.length := by
            have hl := congrArg List.length hw1
            simp only [List.length_append] at hl
            have hw := List.length_pos.mpr hwne
            omega
          have hdrop : rep.drop u.length = w := by
            rw [hw1]; exact List.drop_left u w
          refine (hov.1 u.length hj).1 ?_
          rw [hdrop]
          exact ⟨w2, hw3.symm⟩

/-- The junction lemma: gluing a pattern-free piece, the replacement, and a
pattern-free rest cannot create an occurrence of the pattern when the
replacement cannot overlap it. -/
lemma not_contains_glue {pat rep a I : List Char} (hpat : pat ≠ [])
    (hov : overlapFree pat rep) (ha : containsCL pat a = false)
    (hI : containsCL pat I = false) :
    containsCL pat (a ++ (rep ++ I)) = false := by
  have hrepI := not_contains_rep_append hpat hov hI
  cases h : containsCL pat (a ++ (rep ++ I)) with
  | false => rfl
  | true =>
    exfalso
    obtain ⟨u, v, huv⟩ := containsCL_iff.mp h
    rw [List.append_assoc] at huv
    rcases List.append_eq_append_iff.mp huv with ⟨w, hw1, hw2⟩ | ⟨w, hw1, hw2⟩
    · -- u = a ++ w, rep ++ I = w ++ (pat ++ v): occurrence inside rep ++ I
      have : containsCL pat (rep ++ I) = true :=
        containsCL_iff.mpr ⟨w, v, by rw [hw2]; simp [List.append_assoc]⟩
      rw [hrepI] at this
      exact Bool.noConfusion this
    · -- a = u ++ w, pat ++ v = w ++ (rep ++ I)
      rcases List.append_eq_append_iff.mp hw2 with ⟨w2, hw3, hw4⟩ | ⟨w2, hw3, hw4⟩
      · -- w = pat ++ w2: occurrence inside a
        have hca : containsCL pat a = true :=
          containsCL_iff.mpr ⟨u, w2, by rw [hw1, hw3]; simp [List.append_assoc]⟩
        rw [ha] at hca
        exact Bool.noConfusion hca
      · -- pat = w ++ w2, rep ++ I = w2 ++ v
        cases hwc : w with
        | nil =>
          subst hwc
          simp only [List.nil_append] at hw3
          -- pat = w2: occurrence of pat at the start of rep ++ I
          have hcr : containsCL pat (rep ++ I) = true :=
            containsCL_iff.mpr ⟨[], v, by rw [hw4, ← hw3]; simp⟩
          rw [hrepI] at hcr
          exact Bool.noConfusion hcr
        | cons x xs =>
          cases hw2c : w2 with
          | nil =>
            -- pat = w: occurrence of pat as a suffix of a
            subst hw2c
            rw [List.append_nil] at hw3
            have hca : containsCL pat a = true :=
              containsCL_iff.mpr ⟨u, [], by rw [hw1, ← hw3]; simp⟩
            rw [ha] at hca
            exact Bool.noConfusion hca
          | cons y ys =>
            -- pat = w ++ w2 with both parts non-empty: w2 aligns with rep
            have hwne : w ≠ [] := by rw [hwc]; simp
            have hw2ne : w2 ≠ [] := by rw [hw2c]; simp
            have hk1 : 1 ≤ w.length := List.length_pos.mpr hwne
            have hk2 : w.length < pat.length := by
              have hl := congrArg List.length hw3
              simp only [List.length_append] at hl
              have hwl := List.length_pos.mpr hw2ne
              omega
            have hdrop : pat.drop w.length = w2 := by
              rw [hw3]; exact List.drop_left w w2
            rcases List.append_eq_append_iff.mp hw4 with ⟨w3, hw5, hw6⟩ | ⟨w3, hw5, hw6⟩
            · -- w2 = rep ++ w3: rep starts w2 = pat.drop k
              refine (hov.2 w.length hk2 hk1).2 ?_
              rw [hdrop, hw5]
              exact ⟨w3, rfl⟩
            · -- rep = w2 ++ w3: w2 starts rep
              refine (hov.2 w.length hk2 hk1).1 ?_
              rw [hdrop]
              exact ⟨w3, hw5.symm⟩

/-- Joining pattern-free parts with a non-overlapping replacement yields a
pattern-free string. -/
lemma free_intercalateCL {pat rep : List Char} (hpat : pat ≠ [])
    (hov : overlapFree pat rep) :
    ∀ parts, (∀ p ∈ parts, containsCL pat p = false) →
      containsCL pat (intercalateCL rep parts) = false := by
  intro parts
  induction parts with
  | nil => intro _; simp [intercalateCL, containsCL, hpat]
  | cons a rest ih =>
    intro h
    cases rest with
    | nil => simpa [intercalateCL] using h a (by simp)
    | cons b t =>
      have hI := ih (fun p hp => h p (List.mem_cons_of_mem a hp))
      have ha := h a (by simp)
      have := not_contains_glue hpat hov ha hI
      simpa [intercalateCL, List.append_assoc] using this

/-- Replacing every occurrence of a token with a non-overlapping replacement
leaves no occurrence of the token. -/
lemma replaceAll_self_freeCL {pat rep : List Char} (s : List Char) (hpat : pat ≠ [])
    (hov : overlapFree pat rep) :
    containsCL pat (intercalateCL rep (splitOnGo pat s.length s [])) = false :=
  free_intercalateCL hpat hov _ (splitOn_parts_free s hpat)

/-- Replacing occurrences of another token with a non-overlapping replacement
cannot introduce an occurrence of an absent token. -/
lemma replaceAll_preserve_freeCL {pat1 pat2 rep s : List Char}
    (hpat2 : pat2 ≠ []) (hov : overlapFree pat1 rep)
    (hs : containsCL pat1 s = false) :
    containsCL pat1 (intercalateCL rep (splitOnGo pat2 s.length s [])) = false := by
  have hpat1 : pat1 ≠ [] := containsCL_ne_nil hs
  refine free_intercalateCL hpat1 hov _ ?_
  intro p hp
  have h2 := @infix_intercalateCL pat2 _ _ hp
  rw [intercalateCL_splitOnGo hpat2 s.length s [] le_rfl] at h2
  exact free_of_infix hs (by simpa using h2)

/-! ## String-level bridge lemmas -/

lemma strExt {s t : String} (h : s.data = t.data) : s = t := by
  cases s; cases t; exact congrArg String.mk h

lemma data_append (s t : String) : (s ++ t).data = s.data ++ t.data := by
  cases s; cases t; rfl

lemma map_data_mk (G : List (List Char)) :
    (G.map (fun l => (⟨l⟩ : String))).map String.data = G := by
  induction G with
  | nil => rfl
  | cons a t ih => simp [ih]

lemma replaceAllS_data {s pat rep : String} (h : pat.data ≠ []) :
    (replaceAllS s pat rep).data =
      intercalateCL rep.data (splitOnGo pat.data s.data.length s.data []) := by
  unfold replaceAllS intercalateS splitOnS
  rw [if_neg h, map_data_mk]

lemma splitOnS_of_not_contains {s pat : String} (h : strContains s pat = false) :
    splitOnS s pat = [s] := by
  have hp : pat.data ≠ [] := by
    intro h0
    rw [strContains, h0, containsCL_nil_left] at h
    exact Bool.noConfusion h
  have hsingle := splitOnGo_of_not_contains s.data.length s.data [] le_rfl
    (by simpa [strContains] using h)
  unfold splitOnS
  rw [if_neg hp, show splitOnGo pat.data s.data.length s.data [] = [s.data] by
    simpa using hsingle]
  rfl

lemma replaceFirstS_of_not_contains {s pat rep : String}
    (h : strContains s pat = false) : replaceFirstS s pat rep = s := by
  unfold replaceFirstS
  rw [splitOnS_of_not_contains h]

lemma replaceAllS_of_not_contains {s pat rep : String}
    (h : strContains s pat = false) : replaceAllS s pat rep = s := by
  unfold replaceAllS intercalateS
  rw [splitOnS_of_not_contains h]
  rfl

lemma replaceFirstS_two_occ {t pat rep a b c : String}
    (h : splitOnS t pat = [a, b, c]) :
    replaceFirstS t pat rep = a ++ rep ++ b ++ pat ++ c := by
  unfold replaceFirstS
  rw [h]
  show a ++ rep ++ intercalateS pat [b, c] = _
  apply strExt
  simp [intercalateS, intercalateCL, data_append, List.append_assoc]

lemma replaceAllS_two_occ {t pat rep a b c : String}
    (h : splitOnS t pat = [a, b, c]) :
    replaceAllS t pat rep = a ++ rep ++ b ++ rep ++ c := by
  unfold replaceAllS
  rw [h]
  apply strExt
  simp [intercalateS, intercalateCL, data_append, List.append_assoc]

lemma splitOnS_ne_nil (s sep : String) : splitOnS s sep ≠ [] := by
  unfold splitOnS
  by_cases h : sep.data = []
  · simp [h]
  · rw [if_neg h]
    intro h0
    exact splitOnGo_ne_nil sep.data _ _ _ (List.map_eq_nil_iff.mp h0)

lemma addVendorCss_present {fs : String → Option String} {template inputFile c : String}
    (h : fs inputFile = some c) :
    addVendorCss fs template inputFile =
      .ok (replaceFirstS template "<!--VENDOR_CSS-->" (vendorCssBlock c)) := by
  have hpos : 0 < (splitOnS c "\n").length :=
    List.length_pos.mpr (splitOnS_ne_nil c "\n")
  simp [addVendorCss, h, hpos, vendorCssBlock]

lemma getVendorScripts_present {fs : String → Option String} {inputFile c : String}
    (h : fs inputFile = some c) :
    getVendorScripts fs inputFile = .ok (splitOnS c "\n") := by
  simp [getVendorScripts, h]

lemma addVendorScripts_present {fs : String → Option String} {template inputFile c : String}
    (h : fs inputFile = some c) :
    addVendorScripts fs template inputFile =
      .ok (replaceFirstS template "<!--VENDOR_JS-->" (vendorJsBlock c)) := by
  have hpos : 0 < (splitOnS c "\n").length :=
    List.length_pos.mpr (splitOnS_ne_nil c "\n")
  simp [addVendorScripts, getVendorScripts_present h, hpos, vendorJsBlock]

lemma map_slash_id {l : List Char} (h : ∀ ch ∈ l, ch ≠ '\\') :
    l.map (fun c => if c = '\\' then '/' else c) = l := by
  induction l with
  | nil => rfl
  | cons a t ih =>
    simp only [List.map_cons]
    rw [if_neg (h a (by simp)), ih (fun ch hch => h ch (List.mem_cons_of_mem a hch))]

lemma slash_of_no_backslash {s : String} (h : ∀ ch ∈ s.data, ch ≠ '\\') :
    slash s = s := by
  apply strExt
  show s.data.map _ = s.data
  exact map_slash_id h

lemma createLinkTag_eq_empty_iff {p : String} : createLinkTag p = "" ↔ p = "" := by
  unfold createLinkTag
  by_cases h : p = ""
  · simp [h]
  · rw [if_neg h]
    constructor
    · intro h0
      exfalso
      have hd := congrArg String.data h0
      rw [data_append, data_append] at hd
      have h1 := List.append_eq_nil.mp hd
      have h2 := (List.append_eq_nil.mp h1.1).1
      exact absurd h2 (by decide)
    · intro h0; exact absurd h0 h

lemma createScriptTag_eq_empty_iff {p : String} : createScriptTag p = "" ↔ p = "" := by
  unfold createScriptTag
  by_cases h : p = ""
  · simp [h]
  · rw [if_neg h]
    constructor
    · intro h0
      exfalso
      have hd := congrArg String.data h0
      rw [data_append, data_append] at hd
      have h1 := List.append_eq_nil.mp hd
      have h2 := (List.append_eq_nil.mp h1.1).1
      exact absurd h2 (by decide)
    · intro h0; exact absurd h0 h

lemma filter_map_of_empty_iff {f : String → String}
    (hf : ∀ x, f x = "" ↔ x = "") (l : List String) :
    (l.map f).filter (fun s => !(s == "")) =
      (l.filter (fun s => !(s == ""))).map f := by
  induction l with
  | nil => rfl
  | cons a t ih =>
    by_cases h : a = ""
    · subst h
      simp [List.filter_cons, (hf "").mpr rfl, ih]
    · have hfa : f a ≠ "" := fun h0 => h ((hf a).mp h0)
      simp [List.filter_cons, h, hfa, ih]

/-! ## Claims -/

/-- Claim C9: for every template descriptor with skip set, neither the debug
nor the compiled builder reads the template or writes any output file; both
return successfully, with the same empty effect in every environment. -/
theorem skip_template_no_effect (env : Env) (options : Options)
    (t : TemplateOptions) (basePath appPath : String) (h : t.skip = true) :
    buildDebugIndex env options t basePath appPath = .ok [] ∧
      buildCompiledIndex env options t basePath appPath = .ok [] := by
  constructor
  · simp [buildDebugIndex, h]
  · simp [buildCompiledIndex, h]

/-- Witness for C9 at a concrete skipped template and arbitrary environment
values. -/
theorem skip_template_no_effect_witness :
    buildDebugIndex ⟨fun _ => none, "/cwd", "/cl", fun _ => .ok ()⟩ {}
        ⟨"index", none, true⟩ "/b" "/a" = .ok [] ∧
      buildCompiledIndex ⟨fun _ => none, "/cwd", "/cl", fun _ => .ok ()⟩ {}
        ⟨"index", none, true⟩ "/b" "/a" = .ok [] :=
  skip_template_no_effect _ _ _ _ _ rfl

/-- Claim C4: a failing read of any vendor manifest path is the
process-terminating exit with status 1, a variant distinct from a
per-template thrown failure. -/
theorem vendor_manifest_read_failure_fatal (fs : String → Option String)
    (template inputFile : String) (h : fs inputFile = none) :
    addVendorCss fs template inputFile = .error (.fatalExit 1) ∧
    getVendorScripts fs inputFile = .error (.fatalExit 1) ∧
    addVendorScripts fs template inputFile = .error (.fatalExit 1) ∧
    (∀ msg, BuildErr.fatalExit 1 ≠ BuildErr.thrown msg) ∧ (1 : Nat) ≠ 0 := by
  refine ⟨?_, ?_, ?_, fun msg hEq => BuildErr.noConfusion hEq, by decide⟩
  · simp [addVendorCss, h]
  · simp [getVendorScripts, h]
  · simp [addVendorScripts, getVendorScripts, h]

/-- Witness for C4 at an empty file system. -/
theorem vendor_manifest_read_failure_fatal_witness :
    addVendorCss (fun _ => none) "template" "manifest" = .error (.fatalExit 1) ∧
    getVendorScripts (fun _ => none) "manifest" = .error (.fatalExit 1) :=
  ⟨(vendor_manifest_read_failure_fatal (fun _ => none) "template" "manifest" rfl).1,
   (vendor_manifest_read_failure_fatal (fun _ => none) "template" "manifest" rfl).2.1⟩

/-- Claim C5 counterexample: for an absent manifest the code does not emit
zero tags and strip the marker; it terminates the process with status 1,
producing no output at all. -/
theorem absent_manifest_is_fatal_counterexample :
    addVendorCss (fun _ => none) "<!--VENDOR_CSS-->" "manifest" =
      .error (.fatalExit 1) ∧
    addVendorCss (fun _ => none) "<!--VENDOR_CSS-->" "manifest" ≠
      .ok (replaceFirstS "<!--VENDOR_CSS-->" "<!--VENDOR_CSS-->" "") := by
  have h1 : addVendorCss (fun _ => none) "<!--VENDOR_CSS-->" "manifest" =
      .error (.fatalExit 1) := rfl
  refine ⟨h1, ?_⟩
  rw [h1]
  intro h0
  exact Except.noConfusion h0

/-- Claim C5 (amended): for a manifest that is present with contents `c`,
the vendor marker is replaced by the joined tag block; the non-empty tags of
the block are exactly the tags of the non-empty lines, in file order, so a
manifest with N non-empty lines yields exactly N tags; a present but empty
manifest yields an empty block, removing the marker.  (An absent manifest is
instead the fatal process-terminating error of C4.) -/
theorem vendor_manifest_tags (fs : String → Option String)
    (template inputFile c : String) (h : fs inputFile = some c) :
    (addVendorCss fs template inputFile =
      .ok (replaceFirstS template "<!--VENDOR_CSS-->" (vendorCssBlock c)) ∧
     vendorCssBlock c = intercalateS "\n" ((splitOnS c "\n").map createLinkTag) ∧
     ((splitOnS c "\n").map createLinkTag).filter (fun s => !(s == "")) =
       ((splitOnS c "\n").filter (fun s => !(s == ""))).map createLinkTag ∧
     (((splitOnS c "\n").map createLinkTag).filter (fun s => !(s == ""))).length =
       ((splitOnS c "\n").filter (fun s => !(s == ""))).length) ∧
    (addVendorScripts fs template inputFile =
      .ok (replaceFirstS template "<!--VENDOR_JS-->" (vendorJsBlock c)) ∧
     ((splitOnS c "\n").map createScriptTag).filter (fun s => !(s == "")) =
       ((splitOnS c "\n").filter (fun s => !(s == ""))).map createScriptTag) ∧
    (c = "" → vendorCssBlock c = "" ∧ vendorJsBlock c = "") := by
  refine ⟨⟨addVendorCss_present h, rfl, ?_, ?_⟩,
    ⟨addVendorScripts_present h, ?_⟩, ?_⟩
  · exact filter_map_of_empty_iff (fun x => createLinkTag_eq_empty_iff) _
  · rw [filter_map_of_empty_iff (fun x => createLinkTag_eq_empty_iff) _]
    exact List.length_map _ _
  · exact filter_map_of_empty_iff (fun x => createScriptTag_eq_empty_iff) _
  · intro hc
    subst hc
    exact ⟨by decide, by decide⟩

/-- Witness for C5 on a three-line manifest (one empty line): the marker is
replaced by the joined block and the block holds exactly the two non-empty
tags in order. -/
theorem vendor_manifest_tags_witness :
    addVendorCss (fun _ => some "a.css\n\nb.css") "T<!--VENDOR_CSS-->" "m" =
      .ok (replaceFirstS "T<!--VENDOR_CSS-->" "<!--VENDOR_CSS-->"
        (vendorCssBlock "a.css\n\nb.css")) ∧
    (((splitOnS "a.css\n\nb.css" "\n").map createLinkTag).filter
        (fun s => !(s == ""))).length =
      ((splitOnS "a.css\n\nb.css" "\n").filter (fun s => !(s == ""))).length :=
  ⟨(vendor_manifest_tags (fun _ => some "a.css\n\nb.css") "T<!--VENDOR_CSS-->" "m"
      "a.css\n\nb.css" rfl).1.1,
   (vendor_manifest_tags (fun _ => some "a.css\n\nb.css") "T<!--VENDOR_CSS-->" "m"
      "a.css\n\nb.css" rfl).1.2.2.2⟩

/-- Claim C10: each marker comment is substituted only at its first
occurrence — with two occurrences the second survives verbatim in the output
— while version tokens are substituted at every occurrence (shown on the
debug substitution, whose `dev` replacement lands at both occurrences). -/
theorem markers_first_tokens_every :
    (∀ t a b c cssPath, splitOnS t "<!--APP_CSS-->" = [a, b, c] →
      addAppCss cssPath t =
        a ++ createLinkTag cssPath ++ b ++ "<!--APP_CSS-->" ++ c) ∧
    (∀ t a b c scriptPath, splitOnS t "<!--APP_JS-->" = [a, b, c] →
      addAppScript scriptPath t =
        a ++ createScriptTag scriptPath ++ b ++ "<!--APP_JS-->" ++ c) ∧
    (∀ fs t a b c mf content, fs mf = some content →
      splitOnS t "<!--VENDOR_CSS-->" = [a, b, c] →
      addVendorCss fs t mf =
        .ok (a ++ vendorCssBlock content ++ b ++ "<!--VENDOR_CSS-->" ++ c)) ∧
    (∀ fs t a b c mf content, fs mf = some content →
      splitOnS t "<!--VENDOR_JS-->" = [a, b, c] →
      addVendorScripts fs t mf =
        .ok (a ++ vendorJsBlock content ++ b ++ "<!--VENDOR_JS-->" ++ c)) ∧
    (∀ t a b c, strContains t "@version@" = false →
      strContains t "@packageVersion@" = false →
      splitOnS t "@appVersion@" = [a, b, c] →
      strContains (a ++ "dev" ++ b ++ "dev" ++ c) "@packageVersion@" = false →
      debugVersionSubst t = a ++ "dev" ++ b ++ "dev" ++ c) := by
  refine ⟨?_, ?_, ?_, ?_, ?_⟩
  · intro t a b c cssPath h
    rw [addAppCss, replaceFirstS_two_occ h]
  · intro t a b c scriptPath h
    rw [addAppScript, replaceFirstS_two_occ h]
  · intro fs t a b c mf content hfs h
    rw [addVendorCss_present hfs, replaceFirstS_two_occ h]
  · intro fs t a b c mf content hfs h
    rw [addVendorScripts_present hfs, replaceFirstS_two_occ h]
  · intro t a b c h1 h2 h3 h4
    show replaceAllS (replaceAllS (replaceAllS t "@version@" "") "@appVersion@" "dev")
        "@packageVersion@" "dev" = a ++ "dev" ++ b ++ "dev" ++ c
    rw [replaceAllS_of_not_contains h1, replaceAllS_two_occ h3,
      replaceAllS_of_not_contains h4]

/-- Witness for C10: an app CSS marker appearing twice is filled only at the
first occurrence, and an `@appVersion@` token appearing twice is replaced at
both. -/
theorem markers_first_tokens_every_witness :
    addAppCss "s.css" "x<!--APP_CSS-->y<!--APP_CSS-->z" =
      "x" ++ createLinkTag "s.css" ++ "y" ++ "<!--APP_CSS-->" ++ "z" ∧
    debugVersionSubst "x@appVersion@y@appVersion@z" =
      "x" ++ "dev" ++ "y" ++ "dev" ++ "z" :=
  ⟨markers_first_tokens_every.1 "x<!--APP_CSS-->y<!--APP_CSS-->z" "x" "y" "z"
      "s.css" (by decide),
   markers_first_tokens_every.2.2.2.2 "x@appVersion@y@appVersion@z" "x" "y" "z"
      (by decide) (by decide) (by decide) (by decide)⟩

/-- Claim C7 counterexample: removing an `@version@` occurrence can splice
the surrounding text into a new literal `@version@`, so the debug
substitution's output can still contain one of the three version tokens. -/
theorem debug_version_token_resurfaces :
    debugVersionSubst "@ver@version@sion@" = "@version@" ∧
    strContains (debugVersionSubst "@ver@version@sion@") "@version@" = true := by
  constructor
  · decide
  · decide

/-- Claim C7 (amended): the debug substitution replaces every `@version@`
occurrence by the empty string and then every `@appVersion@` and every
`@packageVersion@` occurrence by the literal `dev`; the output never
contains `@appVersion@` or `@packageVersion@`, but a literal `@version@` can
be spliced back together by the removal. -/
theorem debug_version_subst_spec (t : String) :
    debugVersionSubst t =
      replaceAllS (replaceAllS (replaceAllS t "@version@" "") "@appVersion@" "dev")
        "@packageVersion@" "dev" ∧
    strContains (debugVersionSubst t) "@appVersion@" = false ∧
    strContains (debugVersionSubst t) "@packageVersion@" = false := by
  have hX2 : containsCL ("@appVersion@").data
      (replaceAllS (replaceAllS t "@version@" "") "@appVersion@" "dev").data = false := by
    rw [replaceAllS_data (by decide)]
    exact replaceAll_self_freeCL _ (by decide) (by decide)
  have h3 : (debugVersionSubst t).data =
      intercalateCL ("dev").data (splitOnGo ("@packageVersion@").data
        (replaceAllS (replaceAllS t "@version@" "") "@appVersion@" "dev").data.length
        (replaceAllS (replaceAllS t "@version@" "") "@appVersion@" "dev").data []) := by
    show (replaceAllS (replaceAllS (replaceAllS t "@version@" "") "@appVersion@" "dev")
      "@packageVersion@" "dev").data = _
    exact replaceAllS_data (by decide)
  refine ⟨rfl, ?_, ?_⟩
  · show containsCL ("@appVersion@").data (debugVersionSubst t).data = false
    rw [h3]
    exact replaceAll_preserve_freeCL (by decide) (by decide) hX2
  · show containsCL ("@packageVersion@").data (debugVersionSubst t).data = false
    rw [h3]
    exact replaceAll_self_freeCL _ (by decide) (by decide)

/-- Claim C6: in the compiled build every `@appVersion@` occurrence becomes
the configured app version (or empty if unset), every `@packageVersion@`
occurrence the override version, else the package version, else empty, and
every `@version@` occurrence the app version followed by a path separator
when non-empty and the empty string otherwise; for a template without marker
comments the written file carries exactly this substituted text.  (The app
version is assumed backslash-free, as the source normalises separators.) -/
theorem compiled_version_substitution (env : Env) (options : Options)
    (t : TemplateOptions) (basePath appPath raw c1 c2 : String)
    (hskip : t.skip = false)
    (htmpl : env.fs (templatePathOf basePath t) = some raw)
    (hc1 : env.fs (joinPath (joinPath appPath ".build")
      ("resources-css-dist-" ++ t.id)) = some c1)
    (hc2 : env.fs (joinPath (joinPath appPath ".build")
      ("resources-js-dist-" ++ t.id)) = some c2)
    (hnb : ∀ ch ∈ (jsOr options.appVersion "").data, ch ≠ '\\')
    (hm1 : strContains (compiledVersionSubst options raw) "<!--VENDOR_CSS-->" = false)
    (hm2 : strContains (compiledVersionSubst options raw) "<!--VENDOR_JS-->" = false)
    (hm3 : strContains (compiledVersionSubst options raw) "<!--APP_CSS-->" = false)
    (hm4 : strContains (compiledVersionSubst options raw) "<!--APP_JS-->" = false) :
    compiledVersionSubst options raw =
      replaceAllS
        (replaceAllS (replaceAllS raw "@appVersion@" (jsOr options.appVersion ""))
          "@packageVersion@" (jsOr options.overrideVersion (jsOr options.packageVersion "")))
        "@version@"
        (if jsOr options.appVersion "" = "" then ""
         else jsOr options.appVersion "" ++ "/") ∧
    buildCompiledIndex env options t basePath appPath =
      .ok [(joinPath options.distPath (t.id ++ ".html"),
        compiledVersionSubst options raw)] := by
  have hslash : slash (if jsOr options.appVersion "" ≠ ""
        then jsOr options.appVersion "" ++ pathSep else "") =
      (if jsOr options.appVersion "" = "" then ""
       else jsOr options.appVersion "" ++ "/") := by
    by_cases hv : jsOr options.appVersion "" = ""
    · rw [if_neg (fun hne => hne hv), if_pos hv]
      rfl
    · rw [if_pos hv, if_neg hv]
      show slash (jsOr options.appVersion "" ++ "/") = _
      apply slash_of_no_backslash
      intro ch hch
      rw [data_append] at hch
      rcases List.mem_append.mp hch with hch | hch
      · exact hnb ch hch
      · have hc : ch = '/' := by simpa using hch
        rw [hc]; decide
  constructor
  · exact congrArg
      (replaceAllS
        (replaceAllS (replaceAllS raw "@appVersion@" (jsOr options.appVersion ""))
          "@packageVersion@" (jsOr options.overrideVersion (jsOr options.packageVersion "")))
        "@version@") hslash
  · simp only [buildCompiledIndex, hskip, Bool.false_eq_true, if_false, htmpl,
      addVendorCss_present hc1, replaceFirstS_of_not_contains hm1,
      addVendorScripts_present hc2, replaceFirstS_of_not_contains hm2,
      addAppCss, replaceFirstS_of_not_contains hm3,
      addAppScript, replaceFirstS_of_not_contains hm4]

/-- Witness for C6 with app version `v2`: `@version@` resolves to `v2/`. -/
theorem compiled_version_substitution_witness :
    compiledVersionSubst { appVersion := some "v2", distPath := "/dist" }
        "A@version@B@appVersion@C@packageVersion@D" =
      replaceAllS
        (replaceAllS (replaceAllS "A@version@B@appVersion@C@packageVersion@D"
            "@appVersion@" (jsOr (some "v2") ""))
          "@packageVersion@" (jsOr none (jsOr none "")))
        "@version@" (if jsOr (some "v2") "" = "" then "" else jsOr (some "v2") "" ++ "/") ∧
    compiledVersionSubst { appVersion := some "v2", distPath := "/dist" }
        "A@version@B@appVersion@C@packageVersion@D" = "Av2/Bv2CD" :=
  ⟨(compiled_version_substitution
      ⟨fun p => if p = "/b/x-template.html"
          then some "A@version@B@appVersion@C@packageVersion@D"
          else some "", "/cwd", "/cl", fun _ => .ok ()⟩
      { appVersion := some "v2", distPath := "/dist" }
      ⟨"x", none, false⟩ "/b" "/a"
      "A@version@B@appVersion@C@packageVersion@D" "" ""
      rfl (by decide) (by decide) (by decide) (by decide)
      (by decide) (by decide) (by decide) (by decide)).1,
   by decide⟩

set_option maxHeartbeats 2000000 in
/-- Claim C8: in the debug build the vendor JS marker is consulted only when
present after the earlier substitutions — the theorem holds with the debug
JS manifest absent from the file system, so that manifest is not read when
the marker is missing — and a present app JS marker is filled with exactly
the four-entry bootstrap sequence (generated gcc defines, closure `base.js`,
closure `deps.js`, generated app loader), each path made relative to the
base path. -/
theorem debug_conditional_markers (env : Env) (options : Options)
    (t : TemplateOptions) (basePath appPath raw c1 : String)
    (hskip : t.skip = false)
    (htmpl : env.fs (templatePathOf basePath t) = some raw)
    (hc1 : env.fs (joinPath (joinPath appPath ".build")
      ("resources-css-debug-" ++ t.id)) = some c1)
    (_hjsAbsent : env.fs (joinPath (joinPath appPath ".build")
      ("resources-js-debug-" ++ t.id)) = none)
    (stage : String)
    (hstage : stage = addAppCss options.debugCss
      (replaceFirstS (debugVersionSubst raw) "<!--VENDOR_CSS-->" (vendorCssBlock c1)))
    (hnoVendorJs : strContains stage "<!--VENDOR_JS-->" = false)
    (hAppJs : strContains stage "<!--APP_JS-->" = true) :
    buildDebugIndex env options t basePath appPath =
      .ok [(joinPath basePath (t.id ++ ".html"),
        replaceFirstS stage "<!--APP_JS-->"
          (intercalateS "\n" ([
            relativePath basePath
              (joinPath (joinPath appPath ".build") "gcc-defines-debug.js"),
            relativePath basePath
              (joinPath (joinPath (joinPath env.closureLibPath "closure") "goog") "base.js"),
            relativePath basePath
              (joinPath (joinPath (joinPath env.closureLibPath "closure") "goog") "deps.js"),
            relativePath basePath (getAppLoaderPath appPath)].map createScriptTag)))] := by
  subst hstage
  simp only [buildDebugIndex, hskip, Bool.false_eq_true, if_false, htmpl]
  simp only [addVendorCss_present hc1]
  simp only [hnoVendorJs, hAppJs, if_true, if_false, Bool.false_eq_true]

/-- Witness for C8: a template with an app JS marker but no vendor JS marker
builds successfully although the debug JS manifest is absent. -/
theorem debug_conditional_markers_witness :
    buildDebugIndex
      ⟨fun p => if p = "/b/p-template.html" then some "X<!--APP_JS-->Y"
          else if p = "/a/.build/resources-css-debug-p" then some "" else none,
        "/cwd", "/cl", fun _ => .ok ()⟩
      {} ⟨"p", none, false⟩ "/b" "/a" =
      .ok [(joinPath "/b" ("p" ++ ".html"),
        replaceFirstS
          (addAppCss ""
            (replaceFirstS (debugVersionSubst "X<!--APP_JS-->Y") "<!--VENDOR_CSS-->"
              (vendorCssBlock "")))
          "<!--APP_JS-->"
          (intercalateS "\n" ([
            relativePath "/b" (joinPath (joinPath "/a" ".build") "gcc-defines-debug.js"),
            relativePath "/b" (joinPath (joinPath (joinPath "/cl" "closure") "goog") "base.js"),
            relativePath "/b" (joinPath (joinPath (joinPath "/cl" "closure") "goog") "deps.js"),
            relativePath "/b" (getAppLoaderPath "/a")].map createScriptTag)))] :=
  debug_conditional_markers
    ⟨fun p => if p = "/b/p-template.html" then some "X<!--APP_JS-->Y"
        else if p = "/a/.build/resources-css-debug-p" then some "" else none,
      "/cwd", "/cl", fun _ => .ok ()⟩
    {} ⟨"p", none, false⟩ "/b" "/a" "X<!--APP_JS-->Y" ""
    rfl (by decide) (by decide) (by decide) _ rfl (by decide) (by decide)

/-! ## Orchestration lemmas -/

lemma countLoaderGen_append (l1 l2 : List Ev) :
    countLoaderGen (l1 ++ l2) = countLoaderGen l1 + countLoaderGen l2 :=
  List.countP_append _ _ _

lemma processTemplate_loaderCount (env : Env) (options : Options) (debugOnly : Bool)
    (basePath appPath : String) (t : TemplateOptions) :
    countLoaderGen (processTemplate env options debugOnly basePath appPath t).events =
      (if t.id == "index" && !t.skip then 1 else 0) := by
  unfold processTemplate countLoaderGen
  cases h : (t.id == "index" && !t.skip) with
  | true =>
    cases hl : buildDebugLoader env appPath with
    | error r =>
      simp [h, hl, List.countP_cons, List.countP_nil]
    | ok u =>
      cases u
      cases debugOnly <;>
        simp [h, hl, List.countP_append, List.countP_cons, List.countP_nil]
  | false =>
    cases debugOnly <;>
      simp [h, List.countP_append, List.countP_cons, List.countP_nil]

lemma flatten_loaderCount (env : Env) (options : Options) (debugOnly : Bool)
    (bP aP : String) :
    ∀ ts : List TemplateOptions,
      countLoaderGen
        ((ts.map (processTemplate env options debugOnly bP aP)).map (·.events)).flatten =
        (ts.filter (fun t => t.id == "index" && !t.skip)).length := by
  intro ts
  induction ts with
  | nil => rfl
  | cons a tl ih =>
    rw [List.map_cons, List.map_cons, List.flatten_cons, countLoaderGen_append,
      processTemplate_loaderCount, ih, List.filter_cons]
    cases h : (a.id == "index" && !a.skip) with
    | true => simp [Nat.add_comm]
    | false => simp

lemma buildIndexEvents_loaderCount (env : Env) (options : Options)
    (debugOnly : Bool) (ts : List TemplateOptions)
    (hts : options.templates = some ts) :
    countLoaderGen (buildIndexEvents env options debugOnly) =
      (ts.filter (fun t => t.id == "index" && !t.skip)).length := by
  unfold buildIndexEvents buildIndexOutcomes
  rw [hts]
  exact flatten_loaderCount env options debugOnly (basePathOf env options)
    (appPathOf env options) ts

lemma processTemplate_returned_error {env : Env} {options : Options}
    {debugOnly : Bool} {basePath appPath : String} {t : TemplateOptions} {e : BuildErr}
    (h : (processTemplate env options debugOnly basePath appPath t).returned = .error e) :
    ∃ r, e = .thrown ("Failed writing debug loader: " ++ r) := by
  unfold processTemplate at h
  cases htr : (t.id == "index" && !t.skip) with
  | false =>
    rw [htr] at h
    simp at h
  | true =>
    rw [htr] at h
    cases hl : buildDebugLoader env appPath with
    | error r =>
      rw [hl] at h
      simp at h
      exact ⟨r, h.symm⟩
    | ok u =>
      cases u
      rw [hl] at h
      simp at h

lemma firstError_split (l : List (Except BuildErr Unit)) :
    firstError l = .ok () ∨ ∃ e, firstError l = .error e ∧ Except.error e ∈ l := by
  induction l with
  | nil => exact Or.inl rfl
  | cons a tl ih =>
    cases a with
    | ok u =>
      cases u
      rcases ih with h | ⟨e, h1, h2⟩
      · exact Or.inl (by simpa [firstError] using h)
      · exact Or.inr ⟨e, by simpa [firstError] using h1, List.mem_cons_of_mem _ h2⟩
    | error e => exact Or.inr ⟨e, by simp [firstError], by simp⟩

lemma firstError_all_ok {l : List (Except BuildErr Unit)} (h : firstError l = .ok ()) :
    ∀ x ∈ l, x = .ok () := by
  induction l with
  | nil => intro x hx; exact absurd hx (List.not_mem_nil x)
  | cons a tl ih =>
    cases a with
    | ok u =>
      cases u
      intro x hx
      rcases List.mem_cons.mp hx with hx' | hx'
      · rw [hx']
      · exact ih (by simpa [firstError] using h) x hx'
    | error e => exact absurd h (by simp [firstError])

/-! ## Orchestration claims -/

/-- Claim C1 (amended): every template in the list whose id equals the
reserved name `index` and whose skip flag is unset triggers one generation
of the shared debug loader — so a run performs as many generations as there
are such templates, exactly one only when the list holds exactly one — and
for each such template the generation is started before its own debug build
is invoked. -/
theorem loader_generated_per_index_template (env : Env) (options : Options)
    (debugOnly : Bool) (ts : List TemplateOptions)
    (hts : options.templates = some ts) :
    countLoaderGen (buildIndexEvents env options debugOnly) =
      (ts.filter (fun t => t.id == "index" && !t.skip)).length ∧
    (∀ t ∈ ts, t.id = "index" → t.skip = false →
      ∃ tail, (processTemplate env options debugOnly (basePathOf env options)
        (appPathOf env options) t).events =
        Ev.loaderGen (appPathOf env options) :: tail) := by
  refine ⟨buildIndexEvents_loaderCount env options debugOnly ts hts, ?_⟩
  intro t _hmem hid hskip
  have htr : (t.id == "index" && !t.skip) = true := by
    rw [hid, hskip]; rfl
  cases hl : buildDebugLoader env (appPathOf env options) with
  | error r => exact ⟨[], by simp [processTemplate, htr, hl]⟩
  | ok u =>
    cases u
    exact ⟨[Ev.debugBuild t.id] ++ (if debugOnly then [] else [Ev.compiledBuild t.id]),
      by simp [processTemplate, htr, hl]⟩

/-- Witness for C1 on a one-template list: exactly one loader generation. -/
theorem loader_generated_per_index_template_witness :
    countLoaderGen (buildIndexEvents
      ⟨fun _ => none, "/cwd", "/cl", fun _ => .ok ()⟩
      { templates := some [⟨"index", none, false⟩] } false) = 1 :=
  (loader_generated_per_index_template
    ⟨fun _ => none, "/cwd", "/cl", fun _ => .ok ()⟩
    { templates := some [⟨"index", none, false⟩] } false
    [⟨"index", none, false⟩] rfl).1.trans (by decide)

/-- Claim C1 counterexample: a list with two non-skipped `index` descriptors
triggers the loader generation twice, not exactly once. -/
theorem two_index_templates_double_generation :
    countLoaderGen (buildIndexEvents
      ⟨fun _ => none, "/cwd", "/cl", fun _ => .ok ()⟩
      { templates := some [⟨"index", none, false⟩, ⟨"index", none, false⟩] }
      false) = 2 ∧ (2 : Nat) ≠ 1 :=
  ⟨by decide, by decide⟩

/-- Claim C3: when the one-time loader generation for a non-skipped reserved
`index` template fails, the promise returned by `buildIndex` rejects with an
error wrapping the failure reason, and that template performs neither its
debug nor its compiled build afterwards: its only event is the loader call,
it writes nothing, and its mapped promise carries the wrapped error. -/
theorem loader_failure_aborts_run (env : Env) (options : Options)
    (debugOnly : Bool) (ts : List TemplateOptions) (t : TemplateOptions)
    (reason : String)
    (hts : options.templates = some ts) (hmem : t ∈ ts)
    (hid : t.id = "index") (hskip : t.skip = false)
    (hfail : env.writeDebugLoader (appPathOf env options) = .error reason) :
    (∃ r, buildIndex env options debugOnly =
      .error (.thrown ("Failed writing debug loader: " ++ r))) ∧
    (processTemplate env options debugOnly (basePathOf env options)
      (appPathOf env options) t).events = [Ev.loaderGen (appPathOf env options)] ∧
    (processTemplate env options debugOnly (basePathOf env options)
      (appPathOf env options) t).effects = [] ∧
    (processTemplate env options debugOnly (basePathOf env options)
      (appPathOf env options) t).returned =
      .error (.thrown ("Failed writing debug loader: " ++ reason)) := by
  have htr : (t.id == "index" && !t.skip) = true := by
    rw [hid, hskip]; rfl
  have hret : (processTemplate env options debugOnly (basePathOf env options)
      (appPathOf env options) t).returned =
      .error (.thrown ("Failed writing debug loader: " ++ reason)) := by
    simp [processTemplate, htr, buildDebugLoader, hfail]
  have houtc : buildIndexOutcomes env options debugOnly =
      ts.map (processTemplate env options debugOnly (basePathOf env options)
        (appPathOf env options)) := by
    unfold buildIndexOutcomes
    rw [hts]
  refine ⟨?_, by simp [processTemplate, htr, buildDebugLoader, hfail],
    by simp [processTemplate, htr, buildDebugLoader, hfail], hret⟩
  have hmem2 : (processTemplate env options debugOnly (basePathOf env options)
      (appPathOf env options) t).returned ∈
      (buildIndexOutcomes env options debugOnly).map (·.returned) := by
    rw [houtc]
    exact List.mem_map_of_mem _ (List.mem_map_of_mem _ hmem)
  rcases firstError_split ((buildIndexOutcomes env options debugOnly).map (·.returned))
    with hok | ⟨e, h1, h2⟩
  · exfalso
    have hco := firstError_all_ok hok _ hmem2
    rw [hret] at hco
    exact Except.noConfusion hco
  · rcases List.mem_map.mp h2 with ⟨oc, hoc1, hoc2⟩
    rw [houtc] at hoc1
    rcases List.mem_map.mp hoc1 with ⟨t', _ht'1, ht'2⟩
    have hw : (processTemplate env options debugOnly (basePathOf env options)
        (appPathOf env options) t').returned = .error e := by
      rw [ht'2]; exact hoc2
    rcases processTemplate_returned_error hw with ⟨r, hr⟩
    refine ⟨r, ?_⟩
    show firstError ((buildIndexOutcomes env options debugOnly).map (·.returned)) = _
    rw [h1, hr]

/-- Witness for C3: a failing loader writer makes `buildIndex` reject with
the wrapped reason. -/
theorem loader_failure_aborts_run_witness :
    ∃ r, buildIndex ⟨fun _ => none, "/cwd", "/cl", fun _ => .error "boom"⟩
      { templates := some [⟨"index", none, false⟩] } false =
      .error (.thrown ("Failed writing debug loader: " ++ r)) :=
  (loader_failure_aborts_run
    ⟨fun _ => none, "/cwd", "/cl", fun _ => .error "boom"⟩
    { templates := some [⟨"index", none, false⟩] } false
    [⟨"index", none, false⟩] ⟨"index", none, false⟩ "boom"
    rfl (List.mem_singleton.mpr rfl) rfl rfl rfl).1

/-- Claim C2 evaluated at its failing input: with a first template whose
file is missing and a second healthy one, the promise `buildIndex` returns
still resolves — the missing-template rejection is confined to a discarded
promise chain (`dropped`) and never reaches the caller — while the other
template's build runs to completion and writes its output. -/
theorem missing_template_rejection_dropped :
    buildIndex
      ⟨fun p => if p = "/base/b-template.html" then some "hello"
          else if p = "/base/.build/resources-css-debug-b" then some "x.css" else none,
        "/cwd", "/cl", fun _ => .ok ()⟩
      { templates := some [⟨"a", none, false⟩, ⟨"b", none, false⟩],
        basePath := some "/base" } true = .ok () ∧
    buildIndexDropped
      ⟨fun p => if p = "/base/b-template.html" then some "hello"
          else if p = "/base/.build/resources-css-debug-b" then some "x.css" else none,
        "/cwd", "/cl", fun _ => .ok ()⟩
      { templates := some [⟨"a", none, false⟩, ⟨"b", none, false⟩],
        basePath := some "/base" } true =
      [.thrown "Missing template file /base/a-template.html"] ∧
    buildIndexEffects
      ⟨fun p => if p = "/base/b-template.html" then some "hello"
          else if p = "/base/.build/resources-css-debug-b" then some "x.css" else none,
        "/cwd", "/cl", fun _ => .ok ()⟩
      { templates := some [⟨"a", none, false⟩, ⟨"b", none, false⟩],
        basePath := some "/base" } true = [("/base/b.html", "hello")] :=
  ⟨by decide, by decide, by decide⟩

end OSBI
